import Mathlib

/-!
Verification of the `securityMiddleware` request guard (body-parser
CVE-2024-45590 mitigation middleware): a shallow embedding of the
middleware, its depth computation `getObjectDepth`, its in-place
sanitizer `sanitizeObject`, and the string sanitization pipeline
(three global regex substitutions followed by truncation to 10,000
characters), together with theorems about the guard's behaviour.

JavaScript semantics that the embedding mirrors:
- `parseInt(h || '0')` with base-10/hex prefix handling; `NaN` is
  modelled as `none` (a `none` content length never exceeds the limit,
  exactly as `NaN > MAX_SIZE` is `false`).
- `String.prototype.replace` with a `/g` regex: repeated leftmost
  match, resuming after the end of each match.
- `for (const key in obj)` enumerates array indices as well as object
  keys, and `typeof x === 'object'` holds for arrays and for `null`;
  `null` is additionally excluded by the explicit `!== null` checks
  and by its falsiness in `req.body && ...`.
-/

/-! ## Character classes (JavaScript regex classes, ASCII range) -/

/-- Lower-casing used to model the `i` regex flag (`Char.toLower`). -/
def lowc (c : Char) : Char := c.toLower

/-- JavaScript `\w`: `[A-Za-z0-9_]`. -/
def isWordChar (c : Char) : Bool :=
  ('a' ≤ c && c ≤ 'z') || ('A' ≤ c && c ≤ 'Z') || ('0' ≤ c && c ≤ '9') || c == '_'

/-- JavaScript `\s` (the whitespace characters relevant to header and
    attribute text: space, tab, LF, VT, FF, CR). -/
def isJsSpace (c : Char) : Bool :=
  c == ' ' || c == '\t' || c == '\n' || c == '\x0b' || c == '\x0c' || c == '\r'

/-- Case-insensitive "the pattern `pat` is a prefix of `cs`". -/
def ciStartsWith : List Char → List Char → Bool
  | [], _ => true
  | _ :: _, [] => false
  | p :: ps, c :: cs => (lowc c == lowc p) && ciStartsWith ps cs

/-- Case-sensitive "the pattern `pat` is a prefix of `cs`"
    (JavaScript `String.prototype.includes` is case-sensitive). -/
def csStartsWith : List Char → List Char → Bool
  | [], _ => true
  | _ :: _, [] => false
  | p :: ps, c :: cs => (p == c) && csStartsWith ps cs

/-- JavaScript `hay.includes(pat)`: `pat` occurs contiguously in `hay`. -/
def containsSub : List Char → List Char → Bool
  | [], pat => pat.isEmpty
  | c :: t, pat => csStartsWith pat (c :: t) || containsSub t pat

/-! ## The three regex matchers of `sanitizeObject`

Each matcher reports, at the current position, the length of the match
of the corresponding regex anchored there (`none` when the regex does
not match at this position).  The regexes are deterministic at a given
position (greediness plus the lookahead leaves a single possible
match), so a length fully describes the match. -/

/-- The literal pattern of `/javascript:/gi`. -/
def jsSchemeChars : List Char := ['j', 'a', 'v', 'a', 's', 'c', 'r', 'i', 'p', 't', ':']

/-- Match of `/javascript:/gi` anchored at the head of `cs`. -/
def matchJavascriptAt (cs : List Char) : Option Nat :=
  if ciStartsWith jsSchemeChars cs then some jsSchemeChars.length else none

/-- Match of `/on\w+\s*=/gi` anchored at the head of `cs`: `on`, a
    maximal nonempty word-character run, a maximal whitespace run, `=`.
    (Backtracking cannot produce any other match here: `=` is neither a
    word character nor whitespace.) -/
def matchHandlerAt : List Char → Option Nat
  | c1 :: c2 :: rest =>
    if (lowc c1 == 'o') && (lowc c2 == 'n') then
      let w := (rest.takeWhile isWordChar).length
      if w == 0 then none
      else
        let afterWord := rest.drop w
        let m := (afterWord.takeWhile isJsSpace).length
        match afterWord.drop m with
        | '=' :: _ => some (2 + w + m + 1)
        | _ => none
    else none
  | _ => none

/-- The opening literal of the script-block regex. -/
def scriptOpenChars : List Char := ['<', 's', 'c', 'r', 'i', 'p', 't']

/-- The closing literal of the script-block regex. -/
def scriptCloseChars : List Char := ['<', '/', 's', 'c', 'r', 'i', 'p', 't', '>']

/-- Index of the first case-insensitive occurrence of `pat` in `cs`. -/
def findCIFrom (pat : List Char) : List Char → Option Nat
  | [] => none
  | c :: cs =>
    if ciStartsWith pat (c :: cs) then some 0
    else
      match findCIFrom pat cs with
      | some j => some (j + 1)
      | none => none

/-- Match of `/<script\b[^<]*(?:(?!<\/script>)<[^<]*)*<\/script>/gi`
    anchored at the head of `cs`: the literal `<script`, a word
    boundary (the next character is not a word character), then the
    match extends exactly to the end of the first following
    `</script>` (the lookahead forbids the group from consuming it, so
    backtracking admits no other span). -/
def matchScriptAt (cs : List Char) : Option Nat :=
  if ciStartsWith scriptOpenChars cs then
    match cs.drop 7 with
    | [] => none
    | c :: rest =>
      if isWordChar c then none
      else
        match findCIFrom scriptCloseChars (c :: rest) with
        | some j => some (7 + j + 9)
        | none => none
  else none

/-! ## Global replacement with the empty string

`s.replace(re, '')` for a `/g` regex with nonempty matches: scan left
to right; at a match, drop it and resume after its end; otherwise keep
the character.  `fuel` only bounds the recursion; any `fuel ≥ cs.length`
computes the replacement (each step consumes at least one character). -/

def replaceAllFuel (f : List Char → Option Nat) : Nat → List Char → List Char
  | 0, cs => cs
  | _ + 1, [] => []
  | fuel + 1, c :: cs =>
    match f (c :: cs) with
    | some (n + 1) => replaceAllFuel f fuel (cs.drop n)
    | _ => c :: replaceAllFuel f fuel cs

/-- `s.replace(re, '')` on the character list of `s`. -/
def replaceAll (f : List Char → Option Nat) (cs : List Char) : List Char :=
  replaceAllFuel f cs.length cs

/-- `if (s.length > 10000) s = s.substring(0, 10000)`. -/
def truncateTo10000 (cs : List Char) : List Char :=
  if cs.length > 10000 then cs.take 10000 else cs

/-- The string transform applied by `sanitizeObject` to each string
    value: the three global substitutions in source order, then the
    length cap. -/
def sanitizeString (s : String) : String :=
  let s1 := replaceAll matchScriptAt s.data
  let s2 := replaceAll matchJavascriptAt s1
  let s3 := replaceAll matchHandlerAt s2
  String.mk (truncateTo10000 s3)

/-! ## `parseInt` -/

/-- Decimal digit value, by code point (48–57 are `0`–`9`). -/
def digitValue (c : Char) : Option Nat :=
  let n := c.toNat
  if 48 ≤ n && n ≤ 57 then some (n - 48) else none

/-- Hexadecimal digit value, by code point (48–57 are `0`–`9`,
    97–102 are `a`–`f`, 65–70 are `A`–`F`). -/
def hexDigitValue (c : Char) : Option Nat :=
  let n := c.toNat
  if 48 ≤ n && n ≤ 57 then some (n - 48)
  else if 97 ≤ n && n ≤ 102 then some (n - 97 + 10)
  else if 65 ≤ n && n ≤ 70 then some (n - 65 + 10)
  else none

def isDecDigit (c : Char) : Bool := '0' ≤ c && c ≤ '9'

def isHexDigit (c : Char) : Bool := (hexDigitValue c).isSome

/-- Accumulate digit values in the given base. -/
def digitsToNat (base : Nat) (vals : Char → Option Nat) (ds : List Char) : Nat :=
  ds.foldl (fun acc c => acc * base + ((vals c).getD 0)) 0

/-- JavaScript `parseInt(s)` (no explicit radix): skip leading
    whitespace, optional sign, `0x`/`0X` selects base 16, parse the
    maximal run of digits; no digits means `NaN`, modelled as `none`. -/
def jsParseInt (s : String) : Option Int :=
  let cs := s.data.dropWhile isJsSpace
  let signNeg : Bool :=
    match cs with
    | '-' :: _ => true
    | _ => false
  let cs1 :=
    match cs with
    | '-' :: rest => rest
    | '+' :: rest => rest
    | _ => cs
  let hex : Bool :=
    match cs1 with
    | '0' :: c :: _ => c == 'x' || c == 'X'
    | _ => false
  let digits :=
    if hex then (cs1.drop 2).takeWhile isHexDigit
    else cs1.takeWhile isDecDigit
  if digits.isEmpty then none
  else
    let n : Nat := digitsToNat (if hex then 16 else 10) (if hex then hexDigitValue else digitValue) digits
    some (if signNeg then -(n : Int) else (n : Int))

/-! ## The body value model

A parsed request body: string, number, boolean, null, sequence, or
string-keyed mapping.  Sequences and mappings are given by their own
list-like inductives so that all recursions below are structural. -/

mutual
inductive Body where
  | str (s : String)
  | num (n : Int)
  | bool (b : Bool)
  | null
  | arr (elems : BodyList)
  | obj (fields : BodyFields)
  deriving DecidableEq

inductive BodyList where
  | nil
  | cons (hd : Body) (tl : BodyList)
  deriving DecidableEq

inductive BodyFields where
  | nil
  | cons (key : String) (val : Body) (tl : BodyFields)
  deriving DecidableEq
end

/-- `x && typeof x === 'object'`: arrays and plain objects qualify;
    `null` is `typeof 'object'` but falsy, so it does not. -/
def isContainerB : Body → Bool
  | Body.arr _ => true
  | Body.obj _ => true
  | _ => false

/-- Keys of a mapping, in order. -/
def fieldKeys : BodyFields → List String
  | BodyFields.nil => []
  | BodyFields.cons k _ kvs => k :: fieldKeys kvs

/-- Number of elements of a sequence. -/
def elemsLen : BodyList → Nat
  | BodyList.nil => 0
  | BodyList.cons _ xs => elemsLen xs + 1

/-! ## `getObjectDepth`

`getObjectDepth(obj, currentDepth)`: non-objects (and `null`) return
`currentDepth`; containers fold `max` over `getObjectDepth(child,
currentDepth + 1)` for every own enumerable key (array indices
included), starting from `currentDepth`. -/

mutual
def getObjectDepth : Body → Nat → Nat
  | Body.str _, d => d
  | Body.num _, d => d
  | Body.bool _, d => d
  | Body.null, d => d
  | Body.arr xs, d => depthElems xs d (d + 1)
  | Body.obj kvs, d => depthFields kvs d (d + 1)

def depthElems : BodyList → Nat → Nat → Nat
  | BodyList.nil, acc, _ => acc
  | BodyList.cons x xs, acc, cd => depthElems xs (max acc (getObjectDepth x cd)) cd

def depthFields : BodyFields → Nat → Nat → Nat
  | BodyFields.nil, acc, _ => acc
  | BodyFields.cons _ v kvs, acc, cd => depthFields kvs (max acc (getObjectDepth v cd)) cd
end

/-! ## `sanitizeObject`

Per key of the container (array indices included): a string value is
replaced by its sanitized form; an object-typed non-null value is
recursed into; anything else is left alone.  `sanitizeVal` is the
action on one value. -/

mutual
def sanitizeVal : Body → Body
  | Body.str s => Body.str (sanitizeString s)
  | Body.num n => Body.num n
  | Body.bool b => Body.bool b
  | Body.null => Body.null
  | Body.arr xs => Body.arr (sanitizeElems xs)
  | Body.obj kvs => Body.obj (sanitizeFields kvs)

def sanitizeElems : BodyList → BodyList
  | BodyList.nil => BodyList.nil
  | BodyList.cons x xs => BodyList.cons (sanitizeVal x) (sanitizeElems xs)

def sanitizeFields : BodyFields → BodyFields
  | BodyFields.nil => BodyFields.nil
  | BodyFields.cons k v kvs => BodyFields.cons k (sanitizeVal v) (sanitizeFields kvs)
end

/-- `sanitizeObject(obj)` as called by the middleware: iterates the
    keys of a container; on a non-container it makes no change (the
    middleware only ever calls it on containers). -/
def sanitizeObject : Body → Body
  | Body.arr xs => Body.arr (sanitizeElems xs)
  | Body.obj kvs => Body.obj (sanitizeFields kvs)
  | b => b

/-! ## Shape of a body

`shapeOf` erases the contents of string leaves (only) and keeps
everything else: key sets, sequence lengths, nesting, and the values
of non-string leaves.  Two bodies have the same shape in the sense of
the spec iff their `shapeOf` images are equal. -/

mutual
def shapeOf : Body → Body
  | Body.str _ => Body.str ""
  | Body.num n => Body.num n
  | Body.bool b => Body.bool b
  | Body.null => Body.null
  | Body.arr xs => Body.arr (shapeOfElems xs)
  | Body.obj kvs => Body.obj (shapeOfFields kvs)

def shapeOfElems : BodyList → BodyList
  | BodyList.nil => BodyList.nil
  | BodyList.cons x xs => BodyList.cons (shapeOf x) (shapeOfElems xs)

def shapeOfFields : BodyFields → BodyFields
  | BodyFields.nil => BodyFields.nil
  | BodyFields.cons k v kvs => BodyFields.cons k (shapeOf v) (shapeOfFields kvs)
end

/-! ## Spec-side companions

`specDepth` renders the claim's wording for the depth: the depth of a
scalar is its ancestor-container count, the depth of a container is
the maximum of its children's depths, and an empty container
contributes its own ancestor count.  `mapStrings` renders "sanitize
every string leaf, in both container kinds". -/

mutual
def specDepth : Body → Nat → Nat
  | Body.str _, anc => anc
  | Body.num _, anc => anc
  | Body.bool _, anc => anc
  | Body.null, anc => anc
  | Body.arr xs, anc => specDepthElems xs anc
  | Body.obj kvs, anc => specDepthFields kvs anc

def specDepthElems : BodyList → Nat → Nat
  | BodyList.nil, anc => anc
  | BodyList.cons x xs, anc => max (specDepth x (anc + 1)) (specDepthElems xs anc)

def specDepthFields : BodyFields → Nat → Nat
  | BodyFields.nil, anc => anc
  | BodyFields.cons _ v kvs, anc => max (specDepth v (anc + 1)) (specDepthFields kvs anc)
end

mutual
def mapStrings (f : String → String) : Body → Body
  | Body.str s => Body.str (f s)
  | Body.num n => Body.num n
  | Body.bool b => Body.bool b
  | Body.null => Body.null
  | Body.arr xs => Body.arr (mapStringsElems f xs)
  | Body.obj kvs => Body.obj (mapStringsFields f kvs)

def mapStringsElems (f : String → String) : BodyList → BodyList
  | BodyList.nil => BodyList.nil
  | BodyList.cons x xs => BodyList.cons (mapStrings f x) (mapStringsElems f xs)

def mapStringsFields (f : String → String) : BodyFields → BodyFields
  | BodyFields.nil => BodyFields.nil
  | BodyFields.cons k v kvs => BodyFields.cons k (mapStrings f v) (mapStringsFields f kvs)
end

/-! ## The middleware -/

def MAX_SIZE : Nat := 1048576

def MAX_DEPTH : Nat := 10

def allowedTypes : List String :=
  ["application/json", "application/x-www-form-urlencoded", "multipart/form-data"]

/-- The request envelope the middleware inspects: the two headers it
    reads (absent modelled as `none`) and the parsed body, if any. -/
structure Request where
  contentLengthHeader : Option String
  contentTypeHeader : Option String
  body : Option Body

/-- Outcome of one middleware invocation: the rejection status and
    JSON payload (if rejected), the response headers it set, and the
    body as left behind (sanitized in place on the pass path). -/
structure MwResult where
  status : Option Nat
  payload : Option Body
  headers : List (String × String)
  body : Option Body
  deriving DecidableEq

/-- `req.headers['content-length'] || '0'`. -/
def clString (req : Request) : String :=
  match req.contentLengthHeader with
  | none => "0"
  | some s => if s = "" then "0" else s

/-- `req.headers['content-type'] || ''`. -/
def ctString (req : Request) : String :=
  match req.contentTypeHeader with
  | none => ""
  | some s => s

/-- `contentLength > MAX_SIZE` (false when `parseInt` gave `NaN`). -/
def sizeExceeded (req : Request) : Bool :=
  match jsParseInt (clString req) with
  | some n => decide ((MAX_SIZE : Int) < n)
  | none => false

/-- `allowedTypes.some(type => contentType.includes(type))`. -/
def typeAllowed (ct : String) : Bool :=
  allowedTypes.any (fun t => containsSub ct.data t.data)

/-- `contentType && !allowedTypes.some(...)`. -/
def typeRejected (req : Request) : Bool :=
  (!(ctString req == "")) && !(typeAllowed (ctString req))

/-- `req.body && typeof req.body === 'object' && getObjectDepth(req.body) > MAX_DEPTH`. -/
def depthRejected (req : Request) : Bool :=
  match req.body with
  | some b => isContainerB b && decide (MAX_DEPTH < getObjectDepth b 0)
  | none => false

def sizePayload : Body :=
  Body.obj (BodyFields.cons "success" (Body.bool false)
    (BodyFields.cons "error" (Body.str "Request entity too large")
      (BodyFields.cons "maxSize" (Body.str (toString MAX_SIZE ++ " bytes")) BodyFields.nil)))

def allowedTypesBody : Body :=
  Body.arr (BodyList.cons (Body.str "application/json")
    (BodyList.cons (Body.str "application/x-www-form-urlencoded")
      (BodyList.cons (Body.str "multipart/form-data") BodyList.nil)))

def typePayload : Body :=
  Body.obj (BodyFields.cons "success" (Body.bool false)
    (BodyFields.cons "error" (Body.str "Unsupported media type")
      (BodyFields.cons "allowedTypes" allowedTypesBody BodyFields.nil)))

def depthPayload : Body :=
  Body.obj (BodyFields.cons "success" (Body.bool false)
    (BodyFields.cons "error" (Body.str "Request object too deeply nested")
      (BodyFields.cons "maxDepth" (Body.num (MAX_DEPTH : Int)) BodyFields.nil)))

def passHeaders : List (String × String) :=
  [("X-RateLimit-Limit", "100"), ("X-Content-Type-Options", "nosniff")]

/-- The middleware, check for check in source order: size limit (413),
    content-type allow-list (415), nesting depth (400); then in-place
    sanitization of a container body, the informational headers, and
    `next()` (modelled by `status = none`). -/
def securityMiddleware (req : Request) : MwResult :=
  if sizeExceeded req then
    ⟨some 413, some sizePayload, [], req.body⟩
  else if typeRejected req then
    ⟨some 415, some typePayload, [], req.body⟩
  else
    match req.body with
    | some b =>
      if isContainerB b then
        if MAX_DEPTH < getObjectDepth b 0 then
          ⟨some 400, some depthPayload, [], req.body⟩
        else
          ⟨none, none, passHeaders, some (sanitizeObject b)⟩
      else
        ⟨none, none, passHeaders, req.body⟩
    | none => ⟨none, none, passHeaders, none⟩

/-- No position of `cs` starts a match of the regex modelled by `f`. -/
def noMatchIn (f : List Char → Option Nat) (cs : List Char) : Prop :=
  ∀ i : Nat, f (cs.drop i) = none

/-! ## Termination of the two body recursions

Each recursive call of `getObjectDepth` and `sanitizeObject` descends
to an immediate child of the current container, so on a finite acyclic
value the nesting of calls is bounded by the tree height.  The fuel
variants below make the call budget explicit (one unit per descent
into a child): with any fuel at least the height they already compute
the total functions. -/

mutual
def heightB : Body → Nat
  | Body.str _ => 0
  | Body.num _ => 0
  | Body.bool _ => 0
  | Body.null => 0
  | Body.arr xs => heightElems xs + 1
  | Body.obj kvs => heightFields kvs + 1

def heightElems : BodyList → Nat
  | BodyList.nil => 0
  | BodyList.cons x xs => max (heightB x) (heightElems xs)

def heightFields : BodyFields → Nat
  | BodyFields.nil => 0
  | BodyFields.cons _ v kvs => max (heightB v) (heightFields kvs)
end

mutual
def getObjectDepthF : Nat → Body → Nat → Option Nat
  | _, Body.str _, d => some d
  | _, Body.num _, d => some d
  | _, Body.bool _, d => some d
  | _, Body.null, d => some d
  | fuel, Body.arr xs, d => depthElemsF fuel xs d (d + 1)
  | fuel, Body.obj kvs, d => depthFieldsF fuel kvs d (d + 1)

def depthElemsF : Nat → BodyList → Nat → Nat → Option Nat
  | _, BodyList.nil, acc, _ => some acc
  | 0, BodyList.cons _ _, _, _ => none
  | fuel + 1, BodyList.cons x xs, acc, cd =>
    match getObjectDepthF fuel x cd with
    | none => none
    | some dx => depthElemsF (fuel + 1) xs (max acc dx) cd

def depthFieldsF : Nat → BodyFields → Nat → Nat → Option Nat
  | _, BodyFields.nil, acc, _ => some acc
  | 0, BodyFields.cons _ _ _, _, _ => none
  | fuel + 1, BodyFields.cons _ v kvs, acc, cd =>
    match getObjectDepthF fuel v cd with
    | none => none
    | some dv => depthFieldsF (fuel + 1) kvs (max acc dv) cd
end

mutual
def sanitizeValF : Nat → Body → Option Body
  | _, Body.str s => some (Body.str (sanitizeString s))
  | _, Body.num n => some (Body.num n)
  | _, Body.bool b => some (Body.bool b)
  | _, Body.null => some Body.null
  | fuel, Body.arr xs => (sanitizeElemsF fuel xs).map Body.arr
  | fuel, Body.obj kvs => (sanitizeFieldsF fuel kvs).map Body.obj

def sanitizeElemsF : Nat → BodyList → Option BodyList
  | _, BodyList.nil => some BodyList.nil
  | 0, BodyList.cons _ _ => none
  | fuel + 1, BodyList.cons x xs =>
    match sanitizeValF fuel x with
    | none => none
    | some y =>
      match sanitizeElemsF (fuel + 1) xs with
      | none => none
      | some ys => some (BodyList.cons y ys)

def sanitizeFieldsF : Nat → BodyFields → Option BodyFields
  | _, BodyFields.nil => some BodyFields.nil
  | 0, BodyFields.cons _ _ _ => none
  | fuel + 1, BodyFields.cons k v kvs =>
    match sanitizeValF fuel v with
    | none => none
    | some w =>
      match sanitizeFieldsF (fuel + 1) kvs with
      | none => none
      | some ws => some (BodyFields.cons k w ws)
end

/-- Fuel variant of the `sanitizeObject` entry point. -/
def sanitizeObjectF (fuel : Nat) : Body → Option Body
  | Body.arr xs => (sanitizeElemsF fuel xs).map Body.arr
  | Body.obj kvs => (sanitizeFieldsF fuel kvs).map Body.obj
  | b => some b

/-! ## Concrete values used by the witnesses -/

/-- A chain of singleton mappings, `n` levels of nesting above a
    string leaf. -/
def deepBody : Nat → Body
  | 0 => Body.str "leaf"
  | n + 1 => Body.obj (BodyFields.cons "a" (deepBody n) BodyFields.nil)

def c1Req : Request :=
  ⟨some "100", some "application/json; charset=utf-8",
    some (Body.obj (BodyFields.cons "name" (Body.str "hi") BodyFields.nil))⟩

def c3Req : Request := ⟨none, some "application/json", some (deepBody 11)⟩

def c5Req : Request := ⟨some "50", some "text/plain", none⟩

def c6Req : Request :=
  ⟨some "50", some "text/plain",
    some (Body.obj (BodyFields.cons "a" (Body.str "javascript:x") BodyFields.nil))⟩

/-- A body with a string element inside a sequence. -/
def c7Body : Body :=
  Body.obj (BodyFields.cons "items"
    (Body.arr (BodyList.cons (Body.str "javascript:x") BodyList.nil)) BodyFields.nil)

/-- The idempotence-breaking input: removing the inner `javascript:`
    splices the surrounding text into a fresh `javascript:`. -/
def c8Str : String := "jjavascript:avascript:"

/-- A 10,050-character string consisting of 913 copies of
    `javascript:` followed by seven `a`s: the substitutions shrink it
    to 7 characters, so truncation never applies. -/
def c9BadStr : String :=
  String.mk ((List.replicate 913 jsSchemeChars).flatten ++ List.replicate 7 'a')

/-- A pattern-free 10,050-character string. -/
def c9GoodStr : String := String.mk (List.replicate 10050 'a')

/-! ## Absence of matches, and replacement as the identity -/

theorem noMatchIn_tail {f : List Char → Option Nat} {c : Char} {cs : List Char}
    (h : noMatchIn f (c :: cs)) : noMatchIn f cs :=
  fun i => h (i + 1)

theorem drop_of_len_le : ∀ (cs : List Char) (i : Nat), cs.length ≤ i → cs.drop i = []
  | [], _, _ => by simp
  | _ :: cs, i + 1, h => drop_of_len_le cs i (by simpa using h)

/-- To rule out matches everywhere it is enough to rule them out at
    the positions inside the string (beyond it the rest is empty). -/
theorem noMatchIn_of_bounded (f : List Char → Option Nat) (cs : List Char)
    (hnil : f [] = none) (h : ∀ i, i < cs.length → f (cs.drop i) = none) :
    noMatchIn f cs := by
  intro i
  rcases lt_or_ge i cs.length with hi | hi
  · exact h i hi
  · rw [drop_of_len_le cs i hi]
    exact hnil

theorem noMatchIn_replicate (f : List Char → Option Nat) (c : Char)
    (h : ∀ k, f (List.replicate k c) = none) :
    ∀ n, noMatchIn f (List.replicate n c) := by
  have hdrop : ∀ (n i : Nat), (List.replicate n c).drop i = List.replicate (n - i) c := by
    intro n
    induction n with
    | zero => intro i; simp
    | succ n ih =>
        intro i
        cases i with
        | zero => simp
        | succ i => simp [List.replicate_succ, ih i]
  intro n i
  rw [hdrop n i]
  exact h _

theorem matchScriptAt_replicate_a : ∀ k, matchScriptAt (List.replicate k 'a') = none
  | 0 => rfl
  | _ + 1 => rfl

theorem matchJavascriptAt_replicate_a : ∀ k, matchJavascriptAt (List.replicate k 'a') = none
  | 0 => rfl
  | _ + 1 => rfl

theorem matchHandlerAt_replicate_a : ∀ k, matchHandlerAt (List.replicate k 'a') = none
  | 0 => rfl
  | 1 => rfl
  | _ + 2 => rfl

/-- A global replacement over a string with no match anywhere is the
    identity, for any amount of fuel. -/
theorem replaceAllFuel_of_noMatch (f : List Char → Option Nat) :
    ∀ (fuel : Nat) (cs : List Char), noMatchIn f cs → replaceAllFuel f fuel cs = cs
  | 0, _, _ => rfl
  | _ + 1, [], _ => rfl
  | fuel + 1, c :: cs, h => by
      have h0 : f (c :: cs) = none := h 0
      simp only [replaceAllFuel, h0]
      rw [replaceAllFuel_of_noMatch f fuel cs (noMatchIn_tail h)]

theorem replaceAll_of_noMatch (f : List Char → Option Nat) (cs : List Char)
    (h : noMatchIn f cs) : replaceAll f cs = cs :=
  replaceAllFuel_of_noMatch f cs.length cs h

/-! ## Length facts about the sanitization pipeline -/

theorem truncateTo10000_length_le (cs : List Char) : (truncateTo10000 cs).length ≤ 10000 := by
  unfold truncateTo10000
  split
  · simp
  · omega

theorem truncateTo10000_of_le {cs : List Char} (h : cs.length ≤ 10000) :
    truncateTo10000 cs = cs := by
  unfold truncateTo10000
  rw [if_neg]
  omega

theorem truncateTo10000_eq_take {cs : List Char} (h : 10000 < cs.length) :
    truncateTo10000 cs = cs.take 10000 := by
  unfold truncateTo10000
  rw [if_pos h]

theorem truncateTo10000_length_eq {cs : List Char} (h : 10000 < cs.length) :
    (truncateTo10000 cs).length = 10000 := by
  rw [truncateTo10000_eq_take h, List.length_take]
  omega

theorem stringMk_data (s : String) : String.mk s.data = s := rfl

theorem sanitizeString_data (s : String) :
    (sanitizeString s).data
      = truncateTo10000 (replaceAll matchHandlerAt
          (replaceAll matchJavascriptAt (replaceAll matchScriptAt s.data))) := rfl

theorem sanitizeString_length_le (s : String) : (sanitizeString s).data.length ≤ 10000 := by
  rw [sanitizeString_data]
  exact truncateTo10000_length_le _

/-! ## Sanitization preserves shape -/

mutual
theorem shapeOf_sanitizeVal : ∀ b : Body, shapeOf (sanitizeVal b) = shapeOf b
  | Body.str _ => rfl
  | Body.num _ => rfl
  | Body.bool _ => rfl
  | Body.null => rfl
  | Body.arr xs => congrArg Body.arr (shapeOf_sanitizeElems xs)
  | Body.obj kvs => congrArg Body.obj (shapeOf_sanitizeFields kvs)

theorem shapeOf_sanitizeElems : ∀ xs : BodyList, shapeOfElems (sanitizeElems xs) = shapeOfElems xs
  | BodyList.nil => rfl
  | BodyList.cons x xs => by
      show BodyList.cons (shapeOf (sanitizeVal x)) (shapeOfElems (sanitizeElems xs))
        = BodyList.cons (shapeOf x) (shapeOfElems xs)
      rw [shapeOf_sanitizeVal x, shapeOf_sanitizeElems xs]

theorem shapeOf_sanitizeFields : ∀ kvs : BodyFields, shapeOfFields (sanitizeFields kvs) = shapeOfFields kvs
  | BodyFields.nil => rfl
  | BodyFields.cons k v kvs => by
      show BodyFields.cons k (shapeOf (sanitizeVal v)) (shapeOfFields (sanitizeFields kvs))
        = BodyFields.cons k (shapeOf v) (shapeOfFields kvs)
      rw [shapeOf_sanitizeVal v, shapeOf_sanitizeFields kvs]
end

theorem fieldKeys_sanitizeFields : ∀ kvs : BodyFields, fieldKeys (sanitizeFields kvs) = fieldKeys kvs
  | BodyFields.nil => rfl
  | BodyFields.cons k v kvs => by
      show k :: fieldKeys (sanitizeFields kvs) = k :: fieldKeys kvs
      rw [fieldKeys_sanitizeFields kvs]

theorem elemsLen_sanitizeElems : ∀ xs : BodyList, elemsLen (sanitizeElems xs) = elemsLen xs
  | BodyList.nil => rfl
  | BodyList.cons x xs => by
      show elemsLen (sanitizeElems xs) + 1 = elemsLen xs + 1
      rw [elemsLen_sanitizeElems xs]

/-! ## The sanitizer maps `sanitizeString` over every string leaf -/

mutual
theorem sanitizeVal_eq_mapStrings : ∀ b : Body, sanitizeVal b = mapStrings sanitizeString b
  | Body.str _ => rfl
  | Body.num _ => rfl
  | Body.bool _ => rfl
  | Body.null => rfl
  | Body.arr xs => congrArg Body.arr (sanitizeElems_eq_mapStrings xs)
  | Body.obj kvs => congrArg Body.obj (sanitizeFields_eq_mapStrings kvs)

theorem sanitizeElems_eq_mapStrings : ∀ xs : BodyList, sanitizeElems xs = mapStringsElems sanitizeString xs
  | BodyList.nil => rfl
  | BodyList.cons x xs => by
      show BodyList.cons (sanitizeVal x) (sanitizeElems xs)
        = BodyList.cons (mapStrings sanitizeString x) (mapStringsElems sanitizeString xs)
      rw [sanitizeVal_eq_mapStrings x, sanitizeElems_eq_mapStrings xs]

theorem sanitizeFields_eq_mapStrings : ∀ kvs : BodyFields, sanitizeFields kvs = mapStringsFields sanitizeString kvs
  | BodyFields.nil => rfl
  | BodyFields.cons k v kvs => by
      show BodyFields.cons k (sanitizeVal v) (sanitizeFields kvs)
        = BodyFields.cons k (mapStrings sanitizeString v) (mapStringsFields sanitizeString kvs)
      rw [sanitizeVal_eq_mapStrings v, sanitizeFields_eq_mapStrings kvs]
end

/-! ## `getObjectDepth` agrees with the spec's depth -/

mutual
theorem specDepth_ge : ∀ (b : Body) (anc : Nat), anc ≤ specDepth b anc
  | Body.str _, _ => Nat.le_refl _
  | Body.num _, _ => Nat.le_refl _
  | Body.bool _, _ => Nat.le_refl _
  | Body.null, _ => Nat.le_refl _
  | Body.arr xs, anc => specDepthElems_ge xs anc
  | Body.obj kvs, anc => specDepthFields_ge kvs anc

theorem specDepthElems_ge : ∀ (xs : BodyList) (anc : Nat), anc ≤ specDepthElems xs anc
  | BodyList.nil, _ => Nat.le_refl _
  | BodyList.cons _ xs, anc =>
      Nat.le_trans (specDepthElems_ge xs anc) (Nat.le_max_right _ _)

theorem specDepthFields_ge : ∀ (kvs : BodyFields) (anc : Nat), anc ≤ specDepthFields kvs anc
  | BodyFields.nil, _ => Nat.le_refl _
  | BodyFields.cons _ _ kvs, anc =>
      Nat.le_trans (specDepthFields_ge kvs anc) (Nat.le_max_right _ _)
end

mutual
theorem getObjectDepth_eq_specDepth : ∀ (b : Body) (d : Nat), getObjectDepth b d = specDepth b d
  | Body.str _, _ => rfl
  | Body.num _, _ => rfl
  | Body.bool _, _ => rfl
  | Body.null, _ => rfl
  | Body.arr xs, d => by
      have h := depthElems_eq_specDepth xs d d (Nat.le_refl d)
      have h2 := specDepthElems_ge xs d
      show depthElems xs d (d + 1) = specDepthElems xs d
      omega
  | Body.obj kvs, d => by
      have h := depthFields_eq_specDepth kvs d d (Nat.le_refl d)
      have h2 := specDepthFields_ge kvs d
      show depthFields kvs d (d + 1) = specDepthFields kvs d
      omega

theorem depthElems_eq_specDepth : ∀ (xs : BodyList) (acc d : Nat), d ≤ acc →
    depthElems xs acc (d + 1) = max acc (specDepthElems xs d)
  | BodyList.nil, acc, d, h => by
      show acc = max acc (specDepthElems BodyList.nil d)
      show acc = max acc d
      omega
  | BodyList.cons x xs, acc, d, h => by
      show depthElems xs (max acc (getObjectDepth x (d + 1))) (d + 1)
        = max acc (specDepthElems (BodyList.cons x xs) d)
      rw [depthElems_eq_specDepth xs (max acc (getObjectDepth x (d + 1))) d
            (Nat.le_trans h (Nat.le_max_left _ _)),
          getObjectDepth_eq_specDepth x (d + 1)]
      show max (max acc (specDepth x (d + 1))) (specDepthElems xs d)
        = max acc (max (specDepth x (d + 1)) (specDepthElems xs d))
      omega

theorem depthFields_eq_specDepth : ∀ (kvs : BodyFields) (acc d : Nat), d ≤ acc →
    depthFields kvs acc (d + 1) = max acc (specDepthFields kvs d)
  | BodyFields.nil, acc, d, h => by
      show acc = max acc (specDepthFields BodyFields.nil d)
      show acc = max acc d
      omega
  | BodyFields.cons k v kvs, acc, d, h => by
      show depthFields kvs (max acc (getObjectDepth v (d + 1))) (d + 1)
        = max acc (specDepthFields (BodyFields.cons k v kvs) d)
      rw [depthFields_eq_specDepth kvs (max acc (getObjectDepth v (d + 1))) d
            (Nat.le_trans h (Nat.le_max_left _ _)),
          getObjectDepth_eq_specDepth v (d + 1)]
      show max (max acc (specDepth v (d + 1))) (specDepthFields kvs d)
        = max acc (max (specDepth v (d + 1)) (specDepthFields kvs d))
      omega
end

/-! ## Fuel stabilization: the fuel variants agree with the total functions -/

mutual
theorem getObjectDepthF_eq : ∀ (fuel : Nat) (b : Body) (d : Nat), heightB b ≤ fuel →
    getObjectDepthF fuel b d = some (getObjectDepth b d)
  | _, Body.str _, _, _ => by simp [getObjectDepthF, getObjectDepth]
  | _, Body.num _, _, _ => by simp [getObjectDepthF, getObjectDepth]
  | _, Body.bool _, _, _ => by simp [getObjectDepthF, getObjectDepth]
  | _, Body.null, _, _ => by simp [getObjectDepthF, getObjectDepth]
  | fuel, Body.arr xs, d, h => by
      show depthElemsF fuel xs d (d + 1) = some (depthElems xs d (d + 1))
      refine depthElemsF_eq fuel xs d (d + 1) ?_
      have : heightElems xs + 1 ≤ fuel := h
      omega
  | fuel, Body.obj kvs, d, h => by
      show depthFieldsF fuel kvs d (d + 1) = some (depthFields kvs d (d + 1))
      refine depthFieldsF_eq fuel kvs d (d + 1) ?_
      have : heightFields kvs + 1 ≤ fuel := h
      omega

theorem depthElemsF_eq : ∀ (fuel : Nat) (xs : BodyList) (acc cd : Nat), heightElems xs < fuel →
    depthElemsF fuel xs acc cd = some (depthElems xs acc cd)
  | _, BodyList.nil, _, _, _ => by simp [depthElemsF, depthElems]
  | 0, BodyList.cons x xs, acc, cd, h => by
      have : max (heightB x) (heightElems xs) < 0 := h
      omega
  | fuel + 1, BodyList.cons x xs, acc, cd, h => by
      have hm : max (heightB x) (heightElems xs) < fuel + 1 := h
      have hx : heightB x ≤ fuel := by omega
      have hxs : heightElems xs < fuel + 1 := by omega
      show (match getObjectDepthF fuel x cd with
            | none => none
            | some dx => depthElemsF (fuel + 1) xs (max acc dx) cd)
        = some (depthElems xs (max acc (getObjectDepth x cd)) cd)
      rw [getObjectDepthF_eq fuel x cd hx]
      exact depthElemsF_eq (fuel + 1) xs (max acc (getObjectDepth x cd)) cd hxs

theorem depthFieldsF_eq : ∀ (fuel : Nat) (kvs : BodyFields) (acc cd : Nat), heightFields kvs < fuel →
    depthFieldsF fuel kvs acc cd = some (depthFields kvs acc cd)
  | _, BodyFields.nil, _, _, _ => by simp [depthFieldsF, depthFields]
  | 0, BodyFields.cons _ v kvs, acc, cd, h => by
      have : max (heightB v) (heightFields kvs) < 0 := h
      omega
  | fuel + 1, BodyFields.cons k v kvs, acc, cd, h => by
      have hm : max (heightB v) (heightFields kvs) < fuel + 1 := h
      have hv : heightB v ≤ fuel := by omega
      have hkvs : heightFields kvs < fuel + 1 := by omega
      show (match getObjectDepthF fuel v cd with
            | none => none
            | some dv => depthFieldsF (fuel + 1) kvs (max acc dv) cd)
        = some (depthFields kvs (max acc (getObjectDepth v cd)) cd)
      rw [getObjectDepthF_eq fuel v cd hv]
      exact depthFieldsF_eq (fuel + 1) kvs (max acc (getObjectDepth v cd)) cd hkvs
end

mutual
theorem sanitizeValF_eq : ∀ (fuel : Nat) (b : Body), heightB b ≤ fuel →
    sanitizeValF fuel b = some (sanitizeVal b)
  | _, Body.str _, _ => by simp [sanitizeValF, sanitizeVal]
  | _, Body.num _, _ => by simp [sanitizeValF, sanitizeVal]
  | _, Body.bool _, _ => by simp [sanitizeValF, sanitizeVal]
  | _, Body.null, _ => by simp [sanitizeValF, sanitizeVal]
  | fuel, Body.arr xs, h => by
      show (sanitizeElemsF fuel xs).map Body.arr = some (Body.arr (sanitizeElems xs))
      rw [sanitizeElemsF_eq fuel xs (by have : heightElems xs + 1 ≤ fuel := h; omega)]
      rfl
  | fuel, Body.obj kvs, h => by
      show (sanitizeFieldsF fuel kvs).map Body.obj = some (Body.obj (sanitizeFields kvs))
      rw [sanitizeFieldsF_eq fuel kvs (by have : heightFields kvs + 1 ≤ fuel := h; omega)]
      rfl

theorem sanitizeElemsF_eq : ∀ (fuel : Nat) (xs : BodyList), heightElems xs < fuel →
    sanitizeElemsF fuel xs = some (sanitizeElems xs)
  | _, BodyList.nil, _ => by simp [sanitizeElemsF, sanitizeElems]
  | 0, BodyList.cons x xs, h => by
      have : max (heightB x) (heightElems xs) < 0 := h
      omega
  | fuel + 1, BodyList.cons x xs, h => by
      have hm : max (heightB x) (heightElems xs) < fuel + 1 := h
      have hx : heightB x ≤ fuel := by omega
      have hxs : heightElems xs < fuel + 1 := by omega
      show (match sanitizeValF fuel x with
            | none => none
            | some y =>
              match sanitizeElemsF (fuel + 1) xs with
              | none => none
              | some ys => some (BodyList.cons y ys))
        = some (BodyList.cons (sanitizeVal x) (sanitizeElems xs))
      rw [sanitizeValF_eq fuel x hx, sanitizeElemsF_eq (fuel + 1) xs hxs]

theorem sanitizeFieldsF_eq : ∀ (fuel : Nat) (kvs : BodyFields), heightFields kvs < fuel →
    sanitizeFieldsF fuel kvs = some (sanitizeFields kvs)
  | _, BodyFields.nil, _ => by simp [sanitizeFieldsF, sanitizeFields]
  | 0, BodyFields.cons _ v kvs, h => by
      have : max (heightB v) (heightFields kvs) < 0 := h
      omega
  | fuel + 1, BodyFields.cons k v kvs, h => by
      have hm : max (heightB v) (heightFields kvs) < fuel + 1 := h
      have hv : heightB v ≤ fuel := by omega
      have hkvs : heightFields kvs < fuel + 1 := by omega
      show (match sanitizeValF fuel v with
            | none => none
            | some w =>
              match sanitizeFieldsF (fuel + 1) kvs with
              | none => none
              | some ws => some (BodyFields.cons k w ws))
        = some (BodyFields.cons k (sanitizeVal v) (sanitizeFields kvs))
      rw [sanitizeValF_eq fuel v hv, sanitizeFieldsF_eq (fuel + 1) kvs hkvs]
end

/-! ## Middleware case analysis -/

theorem mw_of_size {req : Request} (hs : sizeExceeded req = true) :
    securityMiddleware req = ⟨some 413, some sizePayload, [], req.body⟩ := by
  unfold securityMiddleware
  rw [if_pos hs]

theorem mw_of_type {req : Request} (hs : sizeExceeded req = false)
    (ht : typeRejected req = true) :
    securityMiddleware req = ⟨some 415, some typePayload, [], req.body⟩ := by
  unfold securityMiddleware
  rw [if_neg (by simp [hs]), if_pos ht]

theorem mw_of_depth {req : Request} {b : Body} (hs : sizeExceeded req = false)
    (ht : typeRejected req = false) (hb : req.body = some b)
    (hc : isContainerB b = true) (hd : MAX_DEPTH < getObjectDepth b 0) :
    securityMiddleware req = ⟨some 400, some depthPayload, [], req.body⟩ := by
  unfold securityMiddleware
  rw [if_neg (by simp [hs]), if_neg (by simp [ht]), hb]
  simp only [hc, if_pos hd, if_true]

theorem mw_pass_sanitized {req : Request} {b : Body} (hs : sizeExceeded req = false)
    (ht : typeRejected req = false) (hb : req.body = some b)
    (hc : isContainerB b = true) (hd : ¬ MAX_DEPTH < getObjectDepth b 0) :
    securityMiddleware req = ⟨none, none, passHeaders, some (sanitizeObject b)⟩ := by
  unfold securityMiddleware
  rw [if_neg (by simp [hs]), if_neg (by simp [ht]), hb]
  simp only [hc, if_neg hd, if_true]

theorem mw_pass_no_container {req : Request} (hs : sizeExceeded req = false)
    (ht : typeRejected req = false)
    (hnc : ∀ b, req.body = some b → isContainerB b = false) :
    securityMiddleware req = ⟨none, none, passHeaders, req.body⟩ := by
  unfold securityMiddleware
  rw [if_neg (by simp [hs]), if_neg (by simp [ht])]
  cases hb : req.body with
  | none => rfl
  | some b => simp only [hnc b hb, if_false, Bool.false_eq_true]

/-- Exhaustive description of one middleware run: exactly one of the
    three rejections (in checking order), or the pass outcome. -/
theorem mw_shape (req : Request) :
    (sizeExceeded req = true
      ∧ securityMiddleware req = ⟨some 413, some sizePayload, [], req.body⟩)
  ∨ (sizeExceeded req = false ∧ typeRejected req = true
      ∧ securityMiddleware req = ⟨some 415, some typePayload, [], req.body⟩)
  ∨ (sizeExceeded req = false ∧ typeRejected req = false ∧ depthRejected req = true
      ∧ securityMiddleware req = ⟨some 400, some depthPayload, [], req.body⟩)
  ∨ (sizeExceeded req = false ∧ typeRejected req = false ∧ depthRejected req = false
      ∧ (securityMiddleware req).status = none
      ∧ (securityMiddleware req).headers = passHeaders) := by
  by_cases hs : sizeExceeded req
  · exact Or.inl ⟨hs, mw_of_size hs⟩
  · rw [Bool.not_eq_true] at hs
    by_cases ht : typeRejected req
    · exact Or.inr (Or.inl ⟨hs, ht, mw_of_type hs ht⟩)
    · rw [Bool.not_eq_true] at ht
      by_cases hd : depthRejected req
      · refine Or.inr (Or.inr (Or.inl ⟨hs, ht, hd, ?_⟩))
        unfold depthRejected at hd
        cases hb : req.body with
        | none => simp only [hb] at hd; exact absurd hd (by simp)
        | some b =>
            simp only [hb] at hd
            have hc : isContainerB b = true := by
              cases hic : isContainerB b with
              | true => rfl
              | false => rw [hic] at hd; simp at hd
            rw [hc] at hd
            simp only [Bool.true_and, decide_eq_true_eq] at hd
            rw [mw_of_depth hs ht hb hc hd, hb]
      · rw [Bool.not_eq_true] at hd
        refine Or.inr (Or.inr (Or.inr ⟨hs, ht, hd, ?_⟩))
        unfold depthRejected at hd
        cases hb : req.body with
        | none =>
            rw [mw_pass_no_container hs ht (fun b hball => by rw [hb] at hball; cases hball)]
            exact ⟨rfl, rfl⟩
        | some b =>
            simp only [hb] at hd
            cases hc : isContainerB b with
            | false =>
                rw [mw_pass_no_container hs ht
                  (fun b2 hb2 => by rw [hb] at hb2; cases hb2; exact hc)]
                exact ⟨rfl, rfl⟩
            | true =>
                rw [hc] at hd
                simp only [Bool.true_and, decide_eq_false_iff_not] at hd
                rw [mw_pass_sanitized hs ht hb hc hd]
                exact ⟨rfl, rfl⟩

/-- `sizeExceeded` in terms of the parsed content length. -/
theorem sizeExceeded_iff (req : Request) :
    sizeExceeded req = true
      ↔ ∃ n : Int, jsParseInt (clString req) = some n ∧ 1048576 < n := by
  unfold sizeExceeded
  cases hp : jsParseInt (clString req) with
  | none => simp
  | some n => simp [MAX_SIZE]

/-- `typeRejected` in terms of the header text. -/
theorem typeRejected_iff (req : Request) :
    typeRejected req = true
      ↔ (ctString req ≠ ""
          ∧ ∀ t ∈ allowedTypes, containsSub (ctString req).data t.data = false) := by
  unfold typeRejected typeAllowed
  rw [Bool.and_eq_true, Bool.not_eq_true', Bool.not_eq_true', beq_eq_false_iff_ne,
      List.any_eq_false]
  simp

theorem sizeExceeded_false_of_le {req : Request}
    (h : ∀ n : Int, jsParseInt (clString req) = some n → n ≤ 1048576) :
    sizeExceeded req = false := by
  unfold sizeExceeded
  cases hp : jsParseInt (clString req) with
  | none => rfl
  | some n =>
      have := h n hp
      simp only [MAX_SIZE, decide_eq_false_iff_not]
      omega

theorem typeRejected_false_of_allowed {req : Request}
    (h : ∃ t ∈ allowedTypes, containsSub (ctString req).data t.data = true) :
    typeRejected req = false := by
  unfold typeRejected typeAllowed
  obtain ⟨t, ht, hc⟩ := h
  have hany : allowedTypes.any (fun t => containsSub (ctString req).data t.data) = true :=
    List.any_eq_true.mpr ⟨t, ht, hc⟩
  rw [hany]
  simp

/-! ## Evaluating the pipeline on a long repetitive string

The lemmas below compute the substitutions on a block of repeated
`javascript:` chunks without unfolding the whole list, chunk by
chunk. -/

theorem ciStartsWith_append : ∀ (pat rest : List Char), ciStartsWith pat (pat ++ rest) = true
  | [], _ => rfl
  | p :: ps, rest => by
      show ((lowc p == lowc p) && ciStartsWith ps (ps ++ rest)) = true
      rw [beq_self_eq_true, Bool.true_and, ciStartsWith_append ps rest]

theorem matchJavascriptAt_js (rest : List Char) :
    matchJavascriptAt (jsSchemeChars ++ rest) = some 11 := by
  unfold matchJavascriptAt
  rw [ciStartsWith_append]
  rfl

theorem replaceAllFuel_cons_match (f : List Char → Option Nat) (c : Char) (cs : List Char)
    (n fuel : Nat) (h : f (c :: cs) = some (n + 1)) :
    replaceAllFuel f (fuel + 1) (c :: cs) = replaceAllFuel f fuel (cs.drop n) := by
  simp [replaceAllFuel, h]

/-- Removing `javascript:` from `k` consecutive copies of it followed
    by a match-free suffix leaves exactly the suffix. -/
theorem replaceAll_js_block : ∀ (k : Nat) (rest : List Char) (fuel : Nat),
    11 * k + rest.length ≤ fuel →
    noMatchIn matchJavascriptAt rest →
    replaceAllFuel matchJavascriptAt fuel ((List.replicate k jsSchemeChars).flatten ++ rest)
      = rest := by
  intro k
  induction k with
  | zero =>
      intro rest fuel hlen hnm
      show replaceAllFuel matchJavascriptAt fuel ([] ++ rest) = rest
      rw [List.nil_append]
      exact replaceAllFuel_of_noMatch _ fuel rest hnm
  | succ k ih =>
      intro rest fuel hlen hnm
      cases fuel with
      | zero => omega
      | succ f =>
          have hshape : (List.replicate (k + 1) jsSchemeChars).flatten ++ rest
              = 'j' :: (jsSchemeChars.tail
                  ++ ((List.replicate k jsSchemeChars).flatten ++ rest)) := by
            rw [List.replicate_succ, List.flatten_cons, List.append_assoc]
            rfl
          rw [hshape]
          have hm : matchJavascriptAt ('j' :: (jsSchemeChars.tail
              ++ ((List.replicate k jsSchemeChars).flatten ++ rest))) = some (10 + 1) := by
            have := matchJavascriptAt_js ((List.replicate k jsSchemeChars).flatten ++ rest)
            rw [show jsSchemeChars ++ ((List.replicate k jsSchemeChars).flatten ++ rest)
                = 'j' :: (jsSchemeChars.tail
                    ++ ((List.replicate k jsSchemeChars).flatten ++ rest)) from rfl] at this
            exact this
          rw [replaceAllFuel_cons_match _ _ _ 10 f hm]
          have hdrop : (jsSchemeChars.tail
              ++ ((List.replicate k jsSchemeChars).flatten ++ rest)).drop 10
              = (List.replicate k jsSchemeChars).flatten ++ rest := by
            have := List.drop_left jsSchemeChars.tail
              ((List.replicate k jsSchemeChars).flatten ++ rest)
            rw [show jsSchemeChars.tail.length = 10 from rfl] at this
            exact this
          rw [hdrop]
          exact ih rest f (by omega) hnm

/-- A position whose first character cannot open a `<script` match is
    not matched by the script regex. -/
theorem matchScriptAt_cons_ne {c : Char} (cs : List Char) (hc : (lowc c == '<') = false) :
    matchScriptAt (c :: cs) = none := by
  have hfalse : ciStartsWith scriptOpenChars (c :: cs) = false := by
    show ((lowc c == lowc '<') && ciStartsWith scriptOpenChars.tail cs) = false
    rw [show lowc '<' = '<' from rfl, hc, Bool.false_and]
  unfold matchScriptAt
  rw [hfalse]
  rfl

/-- If the head character of every position fails a predicate that is
    necessary for a match, there is no match anywhere. -/
theorem noMatchIn_of_head_pred (f : List Char → Option Nat) (p : Char → Bool)
    (hf : ∀ (c : Char) (cs : List Char), p c = false → f (c :: cs) = none)
    (hnil : f [] = none) :
    ∀ cs : List Char, (∀ c ∈ cs, p c = false) → noMatchIn f cs := by
  intro cs hall i
  cases hdrop : cs.drop i with
  | nil => exact hnil
  | cons c rest =>
      refine hf c rest (hall c ?_)
      exact List.drop_subset i cs (hdrop ▸ List.mem_cons_self c rest)

theorem length_flatten_replicate (k : Nat) (l : List Char) :
    (List.replicate k l).flatten.length = k * l.length := by
  induction k with
  | zero => simp
  | succ k ih =>
      rw [List.replicate_succ, List.flatten_cons, List.length_append, ih]
      ring

/-! ## The claims -/

/-- Claim C1: for every request whose declared content-length parses
    to at most 1,048,576, whose content-type header contains one of
    the allowed type substrings, and whose body (when it is a mapping
    or sequence) has nesting depth at most 10, the middleware passes
    the request downstream (no rejection status) and sets the response
    headers `X-RateLimit-Limit: 100` and
    `X-Content-Type-Options: nosniff`. -/
theorem C1_pass_sets_headers : ∀ req : Request,
    (∀ n : Int, jsParseInt (clString req) = some n → n ≤ 1048576) →
    (∃ t ∈ allowedTypes, containsSub (ctString req).data t.data = true) →
    (∀ b : Body, req.body = some b → isContainerB b = true → getObjectDepth b 0 ≤ 10) →
    (securityMiddleware req).status = none ∧
    (securityMiddleware req).headers
      = [("X-RateLimit-Limit", "100"), ("X-Content-Type-Options", "nosniff")] := by
  intro req h1 h2 h3
  have hs : sizeExceeded req = false := sizeExceeded_false_of_le h1
  have ht : typeRejected req = false := typeRejected_false_of_allowed h2
  rcases mw_shape req with ⟨hs2, _⟩ | ⟨_, ht2, _⟩ | ⟨_, _, hd2, _⟩ | ⟨_, _, _, hst, hh⟩
  · rw [hs] at hs2; exact Bool.noConfusion hs2
  · rw [ht] at ht2; exact Bool.noConfusion ht2
  · unfold depthRejected at hd2
    cases hb : req.body with
    | none => simp only [hb] at hd2; exact Bool.noConfusion hd2
    | some b =>
        simp only [hb] at hd2
        cases hc : isContainerB b with
        | false => rw [hc] at hd2; simp at hd2
        | true =>
            rw [hc] at hd2
            simp only [Bool.true_and, decide_eq_true_eq] at hd2
            have := h3 b hb hc
            unfold MAX_DEPTH at hd2
            omega
  · exact ⟨hst, hh⟩

/-- Witness for C1 at a concrete passing request. -/
theorem C1_witness :
    (securityMiddleware c1Req).status = none ∧
    (securityMiddleware c1Req).headers
      = [("X-RateLimit-Limit", "100"), ("X-Content-Type-Options", "nosniff")] :=
  C1_pass_sets_headers c1Req
    (fun n hn => by
      have h : jsParseInt (clString c1Req) = some 100 := by decide
      rw [h] at hn
      injection hn with hn
      omega)
    ⟨"application/json", by decide, by decide⟩
    (fun b hb hc => by
      have h : c1Req.body
          = some (Body.obj (BodyFields.cons "name" (Body.str "hi") BodyFields.nil)) := rfl
      rw [h] at hb
      injection hb with hb
      subst hb
      decide)

/-- Claim C2: sanitization mutates only string leaves; it preserves
    the whole shape of the body (the key list of every mapping, the
    length of every sequence, the nesting structure, and every
    non-string leaf), as witnessed by the string-content-erasing
    `shapeOf` being invariant under `sanitizeObject`, keys being
    preserved by `sanitizeFields`, and lengths by `sanitizeElems`. -/
theorem C2_sanitize_preserves_shape :
    (∀ b : Body, shapeOf (sanitizeObject b) = shapeOf b)
  ∧ (∀ kvs : BodyFields, fieldKeys (sanitizeFields kvs) = fieldKeys kvs)
  ∧ (∀ xs : BodyList, elemsLen (sanitizeElems xs) = elemsLen xs) := by
  refine ⟨?_, fieldKeys_sanitizeFields, elemsLen_sanitizeElems⟩
  intro b
  cases b with
  | str s => rfl
  | num n => rfl
  | bool b => rfl
  | null => rfl
  | arr xs => exact congrArg Body.arr (shapeOf_sanitizeElems xs)
  | obj kvs => exact congrArg Body.obj (shapeOf_sanitizeFields kvs)

/-- Claim C3: `getObjectDepth` computes exactly the spec's depth
    (scalar depth = ancestor-container count, container depth =
    maximum child depth, empty container = its own ancestor count),
    and — when the size and content-type checks pass — a container
    body is rejected with status 400 and the
    "Request object too deeply nested" payload precisely when that
    depth exceeds 10. -/
theorem C3_depth_rejection :
    (∀ (b : Body) (d : Nat), getObjectDepth b d = specDepth b d)
  ∧ (∀ (req : Request) (b : Body), req.body = some b → isContainerB b = true →
      sizeExceeded req = false → typeRejected req = false →
      (((securityMiddleware req).status = some 400 ∧
        (securityMiddleware req).payload = some depthPayload)
        ↔ 10 < specDepth b 0)) := by
  refine ⟨getObjectDepth_eq_specDepth, ?_⟩
  intro req b hb hc hs ht
  rw [← getObjectDepth_eq_specDepth b 0]
  by_cases hd : MAX_DEPTH < getObjectDepth b 0
  · rw [mw_of_depth hs ht hb hc hd]
    unfold MAX_DEPTH at hd
    simp [hd]
  · rw [mw_pass_sanitized hs ht hb hc hd]
    unfold MAX_DEPTH at hd
    simp
    omega

/-- Witness for C3: a body with a scalar at depth 11 is rejected with
    status 400 and the depth payload. -/
theorem C3_witness :
    (securityMiddleware c3Req).status = some 400 ∧
    (securityMiddleware c3Req).payload = some depthPayload :=
  (C3_depth_rejection.2 c3Req (deepBody 11) rfl (by decide) (by decide) (by decide)).mpr
    (by decide)

/-- Claim C4: the middleware rejects with 413 and the
    "Request entity too large" payload exactly when the (defaulted)
    content-length header parses to an integer above 1,048,576; an
    unparseable value (`NaN`) never triggers the 413 rejection. -/
theorem C4_size_check : ∀ req : Request,
    (((securityMiddleware req).status = some 413 ∧
      (securityMiddleware req).payload = some sizePayload)
      ↔ (∃ n : Int, jsParseInt (clString req) = some n ∧ 1048576 < n))
  ∧ (jsParseInt (clString req) = none → (securityMiddleware req).status ≠ some 413) := by
  intro req
  have h413 : (securityMiddleware req).status = some 413 → sizeExceeded req = true := by
    rcases mw_shape req with ⟨hs, hres⟩ | ⟨hs, ht, hres⟩ | ⟨hs, ht, hd, hres⟩ | ⟨hs, ht, hd, hst, hh⟩
    · intro _; exact hs
    · rw [hres]; intro h; simp at h
    · rw [hres]; intro h; simp at h
    · rw [hst]; intro h; exact Option.noConfusion h
  constructor
  · constructor
    · rintro ⟨hst, -⟩
      exact (sizeExceeded_iff req).mp (h413 hst)
    · intro hex
      have hs := (sizeExceeded_iff req).mpr hex
      rw [mw_of_size hs]
      exact ⟨rfl, rfl⟩
  · intro hnone hst
    have hs := (sizeExceeded_iff req).mp (h413 hst)
    obtain ⟨n, hn, -⟩ := hs
    rw [hnone] at hn
    exact Option.noConfusion hn

/-- Witness for C4 at a concrete oversized request. -/
theorem C4_witness :
    (securityMiddleware (⟨some "1048577", some "application/json", none⟩ : Request)).status
      = some 413 := by
  have h := (C4_size_check ⟨some "1048577", some "application/json", none⟩).1.mpr
    ⟨1048577, by decide, by decide⟩
  exact h.1

/-- Claim C5: when the size check passes, the middleware rejects with
    415 and the "Unsupported media type" payload exactly when the
    content-type header is present and non-empty and contains none of
    the allowed substrings; and an empty (or absent) content-type
    never produces a 415. -/
theorem C5_type_check : ∀ req : Request,
    ((sizeExceeded req = false) →
      (((securityMiddleware req).status = some 415 ∧
        (securityMiddleware req).payload = some typePayload)
        ↔ (ctString req ≠ ""
            ∧ ∀ t ∈ allowedTypes, containsSub (ctString req).data t.data = false)))
  ∧ (ctString req = "" → (securityMiddleware req).status ≠ some 415) := by
  intro req
  have h415 : (securityMiddleware req).status = some 415 → typeRejected req = true := by
    rcases mw_shape req with ⟨hs, hres⟩ | ⟨hs, ht, hres⟩ | ⟨hs, ht, hd, hres⟩ | ⟨hs, ht, hd, hst, hh⟩
    · rw [hres]; intro h; simp at h
    · intro _; exact ht
    · rw [hres]; intro h; simp at h
    · rw [hst]; intro h; exact Option.noConfusion h
  constructor
  · intro hs
    constructor
    · rintro ⟨hst, -⟩
      exact (typeRejected_iff req).mp (h415 hst)
    · intro hrhs
      have ht := (typeRejected_iff req).mpr hrhs
      rw [mw_of_type hs ht]
      exact ⟨rfl, rfl⟩
  · intro hempty hst
    have ht := (typeRejected_iff req).mp (h415 hst)
    exact ht.1 hempty

/-- Witness for C5: `text/plain` yields 415 with the payload. -/
theorem C5_witness :
    (securityMiddleware c5Req).status = some 415 ∧
    (securityMiddleware c5Req).payload = some typePayload :=
  ((C5_type_check c5Req).1 (by decide)).mpr ⟨by decide, by decide⟩

/-- Claim C6: the checks run in the order size, content-type, depth,
    each short-circuiting; on every rejection the response headers are
    not set and the body is not mutated, and the informational headers
    are set exactly on the pass path. -/
theorem C6_check_order : ∀ req : Request,
    ((securityMiddleware req).status ≠ none →
      (securityMiddleware req).headers = [] ∧ (securityMiddleware req).body = req.body)
  ∧ ((securityMiddleware req).status = none →
      (securityMiddleware req).headers = passHeaders)
  ∧ (sizeExceeded req = true → (securityMiddleware req).status = some 413)
  ∧ (sizeExceeded req = false → typeRejected req = true →
      (securityMiddleware req).status = some 415)
  ∧ (sizeExceeded req = false → typeRejected req = false → depthRejected req = true →
      (securityMiddleware req).status = some 400) := by
  intro req
  refine ⟨?_, ?_, ?_, ?_, ?_⟩
  · intro hne
    rcases mw_shape req with ⟨hs, hres⟩ | ⟨hs, ht, hres⟩ | ⟨hs, ht, hd, hres⟩ | ⟨hs, ht, hd, hst, hh⟩
    · rw [hres]; exact ⟨rfl, rfl⟩
    · rw [hres]; exact ⟨rfl, rfl⟩
    · rw [hres]; exact ⟨rfl, rfl⟩
    · exact absurd hst hne
  · intro hnone
    rcases mw_shape req with ⟨hs, hres⟩ | ⟨hs, ht, hres⟩ | ⟨hs, ht, hd, hres⟩ | ⟨hs, ht, hd, hst, hh⟩
    · rw [hres] at hnone; exact Option.noConfusion hnone
    · rw [hres] at hnone; exact Option.noConfusion hnone
    · rw [hres] at hnone; exact Option.noConfusion hnone
    · exact hh
  · intro hs; rw [mw_of_size hs]
  · intro hs ht; rw [mw_of_type hs ht]
  · intro hs ht hd
    unfold depthRejected at hd
    cases hb : req.body with
    | none => simp only [hb] at hd; exact Bool.noConfusion hd
    | some b =>
        simp only [hb] at hd
        cases hc : isContainerB b with
        | false => rw [hc] at hd; simp at hd
        | true =>
            rw [hc] at hd
            simp only [Bool.true_and, decide_eq_true_eq] at hd
            rw [mw_of_depth hs ht hb hc hd]

/-- Witness for C6: a request failing the content-type check gets no
    headers and keeps its body byte-for-byte. -/
theorem C6_witness :
    (securityMiddleware c6Req).headers = [] ∧
    (securityMiddleware c6Req).body = c6Req.body :=
  (C6_check_order c6Req).1 (by decide)

/-- Claim C7 counterexample: the claim says string elements of a
    sequence are not visited or sanitized, but `for...in` enumerates
    array indices and arrays are `typeof 'object'`, so the string
    inside the sequence IS sanitized (here `javascript:` is removed
    from it). -/
theorem C7_counterexample :
    sanitizeObject c7Body
      = Body.obj (BodyFields.cons "items"
          (Body.arr (BodyList.cons (Body.str "x") BodyList.nil)) BodyFields.nil)
    ∧ sanitizeObject c7Body ≠ c7Body := by decide

/-- Claim C7 (amended): the sanitizer recurses into sequences exactly
    as into mappings — on any container body it sanitizes every string
    leaf, i.e. it acts as the map of `sanitizeString` over all string
    leaves of the tree, sequence elements included. -/
theorem C7_amended : ∀ b : Body, isContainerB b = true →
    sanitizeObject b = mapStrings sanitizeString b := by
  intro b hc
  cases b with
  | str s => exact Bool.noConfusion hc
  | num n => exact Bool.noConfusion hc
  | bool b => exact Bool.noConfusion hc
  | null => exact Bool.noConfusion hc
  | arr xs => exact congrArg Body.arr (sanitizeElems_eq_mapStrings xs)
  | obj kvs => exact congrArg Body.obj (sanitizeFields_eq_mapStrings kvs)

/-- Witness for the amended C7 at a concrete container. -/
theorem C7_witness : sanitizeObject c7Body = mapStrings sanitizeString c7Body :=
  C7_amended c7Body rfl

/-- Claim C8 counterexample: sanitization is NOT idempotent; on
    `"jjavascript:avascript:"` one pass yields `"javascript:"` and a
    second pass yields `""`. -/
theorem C8_counterexample :
    sanitizeString c8Str = "javascript:"
    ∧ sanitizeString (sanitizeString c8Str) = ""
    ∧ sanitizeString (sanitizeString c8Str) ≠ sanitizeString c8Str := by decide

/-- Claim C8 (amended): sanitization is idempotent on every string
    whose sanitized form contains no residual occurrence of the three
    removal patterns (global removal can splice new occurrences
    together, which is the only way idempotence fails; the length cap
    never re-triggers, because one pass already caps at 10,000). -/
theorem C8_amended : ∀ s : String,
    noMatchIn matchScriptAt (sanitizeString s).data →
    noMatchIn matchJavascriptAt (sanitizeString s).data →
    noMatchIn matchHandlerAt (sanitizeString s).data →
    sanitizeString (sanitizeString s) = sanitizeString s := by
  intro s h1 h2 h3
  show String.mk (truncateTo10000 (replaceAll matchHandlerAt
      (replaceAll matchJavascriptAt (replaceAll matchScriptAt (sanitizeString s).data))))
    = sanitizeString s
  rw [replaceAll_of_noMatch _ _ h1, replaceAll_of_noMatch _ _ h2,
      replaceAll_of_noMatch _ _ h3,
      truncateTo10000_of_le (sanitizeString_length_le s), stringMk_data]

/-- Witness for the amended C8 at a concrete pattern-free string. -/
theorem C8_witness :
    sanitizeString (sanitizeString "hello world") = sanitizeString "hello world" :=
  C8_amended "hello world"
    (noMatchIn_of_bounded _ _ (by decide) (by decide))
    (noMatchIn_of_bounded _ _ (by decide) (by decide))
    (noMatchIn_of_bounded _ _ (by decide) (by decide))

/-- Claim C9 counterexample: not every 10,050-character string
    sanitizes to exactly 10,000 characters — a pattern-heavy one
    shrinks to 7. -/
theorem C9_counterexample :
    c9BadStr.data.length = 10050
    ∧ (sanitizeString c9BadStr).data.length = 7
    ∧ (sanitizeString c9BadStr).data.length ≠ 10000 := by
  have hdata : c9BadStr.data
      = (List.replicate 913 jsSchemeChars).flatten ++ List.replicate 7 'a' := rfl
  have hlen : c9BadStr.data.length = 10050 := by
    rw [hdata, List.length_append, length_flatten_replicate, List.length_replicate]
    rfl
  have hnoscript : noMatchIn matchScriptAt c9BadStr.data := by
    refine noMatchIn_of_head_pred matchScriptAt (fun c => lowc c == '<')
      (fun c cs hc => matchScriptAt_cons_ne cs hc) rfl c9BadStr.data ?_
    intro c hc
    rw [hdata] at hc
    rcases List.mem_append.mp hc with h | h
    · obtain ⟨l, hl, hcl⟩ := List.mem_flatten.mp h
      rw [List.eq_of_mem_replicate hl] at hcl
      have hjs : ∀ x ∈ jsSchemeChars, (lowc x == '<') = false := by decide
      exact hjs c hcl
    · rw [List.eq_of_mem_replicate h]
      rfl
  have e1 : replaceAll matchScriptAt c9BadStr.data = c9BadStr.data :=
    replaceAll_of_noMatch _ _ hnoscript
  have e2 : replaceAll matchJavascriptAt c9BadStr.data = List.replicate 7 'a' := by
    show replaceAllFuel matchJavascriptAt c9BadStr.data.length c9BadStr.data
      = List.replicate 7 'a'
    rw [hlen]
    rw [show c9BadStr.data
        = (List.replicate 913 jsSchemeChars).flatten ++ List.replicate 7 'a' from rfl]
    exact replaceAll_js_block 913 (List.replicate 7 'a') 10050
      (by rw [List.length_replicate])
      (noMatchIn_replicate _ _ matchJavascriptAt_replicate_a 7)
  have e3 : replaceAll matchHandlerAt (List.replicate 7 'a') = List.replicate 7 'a' :=
    replaceAll_of_noMatch _ _ (noMatchIn_replicate _ _ matchHandlerAt_replicate_a 7)
  have hres : (sanitizeString c9BadStr).data = List.replicate 7 'a' := by
    rw [sanitizeString_data, e1, e2, e3,
        truncateTo10000_of_le (by rw [List.length_replicate]; omega)]
  rw [hres, List.length_replicate]
  exact ⟨hlen, rfl, by omega⟩

/-- Claim C9 (amended): a 10,050-character string on which the three
    substitutions make no change sanitizes to EXACTLY its first 10,000
    characters (the prefix itself, hence length 10,000); and the
    truncation step maps ANY post-substitution result longer than
    10,000 characters to exactly its first 10,000 characters. -/
theorem C9_truncation :
    (∀ s : String, noMatchIn matchScriptAt s.data → noMatchIn matchJavascriptAt s.data →
      noMatchIn matchHandlerAt s.data → s.data.length = 10050 →
      (sanitizeString s).data = s.data.take 10000
      ∧ (sanitizeString s).data.length = 10000)
  ∧ (∀ cs : List Char, 10000 < cs.length →
      truncateTo10000 cs = cs.take 10000
      ∧ (truncateTo10000 cs).length = 10000) := by
  constructor
  · intro s h1 h2 h3 hlen
    have hdata : (sanitizeString s).data = s.data.take 10000 := by
      rw [sanitizeString_data, replaceAll_of_noMatch _ _ h1, replaceAll_of_noMatch _ _ h2,
          replaceAll_of_noMatch _ _ h3, truncateTo10000_eq_take (by omega)]
    refine ⟨hdata, ?_⟩
    rw [hdata, List.length_take]
    omega
  · intro cs h
    exact ⟨truncateTo10000_eq_take h, truncateTo10000_length_eq h⟩

/-- Witness for the amended C9. -/
theorem C9_witness :
    ((sanitizeString c9GoodStr).data = c9GoodStr.data.take 10000
      ∧ (sanitizeString c9GoodStr).data.length = 10000)
    ∧ truncateTo10000 (List.replicate 10050 'a') = (List.replicate 10050 'a').take 10000 :=
  ⟨C9_truncation.1 c9GoodStr
      (noMatchIn_replicate _ _ matchScriptAt_replicate_a 10050)
      (noMatchIn_replicate _ _ matchJavascriptAt_replicate_a 10050)
      (noMatchIn_replicate _ _ matchHandlerAt_replicate_a 10050)
      (by show (List.replicate 10050 'a').length = 10050; rw [List.length_replicate]),
    (C9_truncation.2 _ (by rw [List.length_replicate]; omega)).1⟩

/-- Claim C10: on every finite acyclic body value the recursions of
    `getObjectDepth` and `sanitizeObject` terminate — each recursive
    call descends to an immediate child, so a call budget of one unit
    per descent suffices as soon as it covers the tree height: the
    fuel-bounded variants stabilize at the total functions' values. -/
theorem C10_termination :
    (∀ (fuel : Nat) (b : Body) (d : Nat), heightB b ≤ fuel →
        getObjectDepthF fuel b d = some (getObjectDepth b d))
  ∧ (∀ (fuel : Nat) (b : Body), heightB b ≤ fuel →
        sanitizeObjectF fuel b = some (sanitizeObject b)) := by
  refine ⟨getObjectDepthF_eq, ?_⟩
  intro fuel b h
  cases b with
  | str s => rfl
  | num n => rfl
  | bool b => rfl
  | null => rfl
  | arr xs =>
      show (sanitizeElemsF fuel xs).map Body.arr = some (Body.arr (sanitizeElems xs))
      rw [sanitizeElemsF_eq fuel xs (by have h2 : heightElems xs + 1 ≤ fuel := h; omega)]
      rfl
  | obj kvs =>
      show (sanitizeFieldsF fuel kvs).map Body.obj = some (Body.obj (sanitizeFields kvs))
      rw [sanitizeFieldsF_eq fuel kvs (by have h2 : heightFields kvs + 1 ≤ fuel := h; omega)]
      rfl

/-- Witness for C10 at a concrete 11-deep body. -/
theorem C10_witness :
    getObjectDepthF 12 (deepBody 11) 0 = some (getObjectDepth (deepBody 11) 0)
    ∧ sanitizeObjectF 12 (deepBody 11) = some (sanitizeObject (deepBody 11)) :=
  ⟨C10_termination.1 12 (deepBody 11) 0 (by decide),
   C10_termination.2 12 (deepBody 11) (by decide)⟩

/-! ## Concrete behaviour checks (the spec's worked examples) -/

theorem jsParseInt_check :
    jsParseInt "1048577" = some 1048577 ∧ jsParseInt "0" = some 0
    ∧ jsParseInt "abc" = none ∧ jsParseInt " 42x" = some 42
    ∧ jsParseInt "-7" = some (-7) ∧ jsParseInt "0x10" = some 16 := by decide

theorem sanitizeString_check :
    sanitizeString "click here javascript:alert(1)" = "click here alert(1)"
    ∧ sanitizeString "<script>alert(1)</script>hello" = "hello"
    ∧ sanitizeString "<div onclick=\"x()\">" = "<div \"x()\">" := by decide

theorem containsSub_check :
    containsSub "application/json; charset=utf-8".data "application/json".data = true := by
  decide
